import Mathlib

/-!
Shallow embedding of `torch/csrc/jit/passes/device_type_analysis.cpp`
(the JIT device-type propagation pass), together with proofs about it.

Values of the graph are identified by natural numbers; the mutable
per-value type information (the only state this pass mutates) is a
function `State : ValueId → VType`.  Fatal `TORCH_INTERNAL_ASSERT`
failures are modelled as `Except.error` with an error tag naming the
assertion site; `.ok (s, changed)` is a normal return.
-/

/-- A device (placement) tag: opaque, equality-comparable. -/
abbrev Device := Nat

/-- Identifier of an IR `Value`. -/
abbrev ValueId := Nat

/-- The type carried by a `Value`: a tensor type with an optional device,
or some non-tensor type (`cast<TensorType>` fails on the latter). -/
inductive VType where
  | tensor (device : Option Device)
  | other
deriving DecidableEq, Repr

/-- The mutable type assignment of all values of the graph. -/
abbrev State := ValueId → VType

/-- Declared type of a formal schema argument.  `containedTypes()` of a
union/optional is modelled structurally: `optionalT t` contains `t`,
`unionT a b` contains `a` and `b`; the base types contain nothing. -/
inductive SchemaType where
  | deviceT
  | tensorT
  | otherT
  | optionalT (t : SchemaType)
  | unionT (a b : SchemaType)
deriving DecidableEq, Repr

/-- A statically known constant (`IValue`) as far as this pass inspects it:
the `None` variant, a concrete device, or any other value. -/
inductive IVal where
  | noneV
  | deviceV (d : Device)
  | otherV
deriving DecidableEq, Repr

/-- Node kinds distinguished by the pass.  `aten op` is an ordinary
computational operation (`kind().is_aten()`), carrying its operator
identity for the rule-registry lookup. -/
inductive NodeKind where
  | ifK
  | loopK
  | callMethod
  | callFunction
  | constant
  | listConstruct
  | listUnpack
  | aten (op : Nat)
  | otherKind
deriving DecidableEq, Repr

/-- An IR node: kind, input values, output values, and the ordered formal
argument types of its operator schema. -/
structure Node where
  kind : NodeKind
  inputs : List ValueId
  outputs : List ValueId
  schemaArgs : List SchemaType
deriving DecidableEq, Repr

/-- The graph: one top-level block of nodes, plus the static-value
resolution facility (`toIValue`): for each value, its statically known
constant, if any.  The pass never mutates either component. -/
structure Graph where
  nodes : List Node
  constMap : ValueId → Option IVal

/-- Tags for the fatal assertion sites of the pass. -/
inductive Err where
  /-- `setDeviceType`: "Expecting a tensor type". -/
  | expectingTensor
  /-- `setDeviceType`: "Expected device to be X but found Y"
  (overwrite without `can_overwrite`). -/
  | overwriteDenied
  /-- `propWithNoDevice`: "Expected device to be X but found Y"
  (two tensor inputs with different known devices). -/
  | inputDeviceMismatch
  /-- `processNode`: "Loop/Call not handled now". -/
  | notHandled
  /-- `processNode`: "not supported IR". -/
  | notSupportedIR
  /-- `defaultDeviceProp`: `inputs().at(i)` out of range. -/
  | indexOutOfRange
deriving DecidableEq, Repr

/-- `bool setDeviceType(Value* value, Device device, bool can_overwrite)`. -/
def setDeviceType (s : State) (v : ValueId) (device : Device)
    (can_overwrite : Bool) : Except Err (State × Bool) :=
  match s v with
  | .other => .error .expectingTensor
  | .tensor none =>
      .ok (fun w => if w = v then .tensor (some device) else s w, true)
  | .tensor (some d) =>
      if d ≠ device then
        if can_overwrite then
          .ok (fun w => if w = v then .tensor (some device) else s w, true)
        else .error .overwriteDenied
      else .ok (s, false)

/-- `bool setReturnsToDevice(Node* n, Device device)`: fan the device out
over the outputs, skipping outputs whose type does not cast to a tensor
type, OR-folding the changed flags.  Takes the output list directly. -/
def setReturnsToDevice (s : State) (outs : List ValueId) (device : Device) :
    Except Err (State × Bool) :=
  match outs with
  | [] => .ok (s, false)
  | out :: rest =>
    match s out with
    | .other => setReturnsToDevice s rest device
    | .tensor _ =>
      match setDeviceType s out device false with
      | .error e => .error e
      | .ok (s1, c1) =>
        match setReturnsToDevice s1 rest device with
        | .error e => .error e
        | .ok (s2, c2) => .ok (s2, c1 || c2)

/-- The input loop of `propWithNoDevice`: compute the common device of the
tensor inputs, asserting that every further known device equals the first
one found. -/
def findCommonDevice (s : State) (inps : List ValueId)
    (device : Option Device) : Except Err (Option Device) :=
  match inps with
  | [] => .ok device
  | inp :: rest =>
    match s inp with
    | .other => findCommonDevice s rest device
    | .tensor dev =>
      match device with
      | some d =>
        match dev with
        | some cur =>
            if d = cur then findCommonDevice s rest device
            else .error .inputDeviceMismatch
        | none => findCommonDevice s rest device
      | none => findCommonDevice s rest dev

/-- `bool propWithNoDevice(Node* n)`. -/
def propWithNoDevice (s : State) (n : Node) : Except Err (State × Bool) :=
  match findCommonDevice s n.inputs none with
  | .error e => .error e
  | .ok none => .ok (s, false)
  | .ok (some d) => setReturnsToDevice s n.outputs d

/-- `bool isDeviceArgumentType(TypePtr type)`: recursively true when the
type is the device type or a union/optional containing one. -/
def isDeviceArgumentType : SchemaType → Bool
  | .deviceT => true
  | .optionalT t => isDeviceArgumentType t
  | .unionT a b => isDeviceArgumentType a || isDeviceArgumentType b
  | _ => false

/-- The argument loop of `defaultDeviceProp`, scanning formal argument
types from index `i`.  `.at(i)` past the end of the inputs is a thrown
exception, modelled as `indexOutOfRange`.  Falling off the end of the
argument list runs `propWithNoDevice`. -/
def scanDeviceArgs (g : Graph) (s : State) (n : Node) :
    List SchemaType → Nat → Except Err (State × Bool)
  | [], _ => propWithNoDevice s n
  | argTy :: rest, i =>
    if isDeviceArgumentType argTy then
      match n.inputs.get? i with
      | none => .error .indexOutOfRange
      | some inpId =>
        match g.constMap inpId with
        | none => .ok (s, false)
        | some iv =>
          match iv with
          | .noneV => scanDeviceArgs g s n rest (i + 1)
          | .deviceV d => setReturnsToDevice s n.outputs d
          | .otherV => .ok (s, false)
    else scanDeviceArgs g s n rest (i + 1)

/-- `bool defaultDeviceProp(Node* n)`. -/
def defaultDeviceProp (g : Graph) (s : State) (n : Node) :
    Except Err (State × Bool) :=
  scanDeviceArgs g s n n.schemaArgs 0

/-- A custom propagation rule (`PropRule`). -/
abbrev PropRule := Graph → State → Node → Except Err (State × Bool)

/-- `buildRuleRegistry()`: the registry ships empty (the two inserts in
the source are commented out). -/
def buildRuleRegistry : List (Nat × PropRule) := []

/-- Operator identity of a node, for the registry lookup. -/
def atenOp : NodeKind → Option Nat
  | .aten op => some op
  | _ => none

/-- `bool processAtenOps(Node* n)`: registry lookup, then the default
propagation rule. -/
def processAtenOps (g : Graph) (s : State) (n : Node) :
    Except Err (State × Bool) :=
  match buildRuleRegistry.find? (fun p => atenOp n.kind == some p.fst) with
  | some p => p.snd g s n
  | none => defaultDeviceProp g s n

/-- Does this type cast to a tensor type? -/
def isTensorType : VType → Bool
  | .tensor _ => true
  | .other => false

/-- `bool processNode(Node* n)`: control-flow/call kinds abort first;
nodes with no tensor-typed output are skipped; constants are skipped;
list construct/unpack abort; aten ops dispatch; anything else aborts. -/
def processNode (g : Graph) (s : State) (n : Node) :
    Except Err (State × Bool) :=
  match n.kind with
  | .ifK | .loopK | .callMethod | .callFunction => .error .notHandled
  | _ =>
    if !(n.outputs.any fun v => isTensorType (s v)) then .ok (s, false)
    else
      match n.kind with
      | .constant => .ok (s, false)
      | .listConstruct | .listUnpack => .error .notSupportedIR
      | .aten _ => processAtenOps g s n
      | _ => .error .notSupportedIR

/-- `bool processBlock(Block* b)`: fold `processNode` over the nodes in
order, OR-folding the changed flags. -/
def processBlock (g : Graph) : State → List Node → Except Err (State × Bool)
  | s, [] => .ok (s, false)
  | s, n :: rest =>
    match processNode g s n with
    | .error e => .error e
    | .ok (s1, c1) =>
      match processBlock g s1 rest with
      | .error e => .error e
      | .ok (s2, c2) => .ok (s2, c1 || c2)

/-- `bool DeviceTypePropagation(std::shared_ptr<Graph>& graph)`: run the
single sweep over the (single) top-level block. -/
def DeviceTypePropagation (g : Graph) (s : State) : Except Err (State × Bool) :=
  processBlock g s g.nodes

/-! ## Derived notions used to state the claims -/

/-- The known devices of the tensor-typed inputs, in input order. -/
def knownInputDevices (s : State) (inps : List ValueId) : List Device :=
  inps.filterMap fun v =>
    match s v with
    | .tensor (some d) => some d
    | _ => none

/-- Some output is a tensor whose known device differs from `d`
(the condition under which the fan-out hits the no-overwrite assert). -/
def outConflict (s : State) (d : Device) (outs : List ValueId) : Prop :=
  ∃ out ∈ outs, ∃ d0, s out = .tensor (some d0) ∧ d0 ≠ d

/-- The state after fanning device `d` out over `outs`: every tensor-typed
output gets device `d`, everything else is untouched. -/
def updOuts (s : State) (outs : List ValueId) (d : Device) : State :=
  fun w => if w ∈ outs ∧ isTensorType (s w) = true then .tensor (some d) else s w

/-- Is some output a tensor type with no device yet?  (This is exactly
when the fan-out reports a change.) -/
def anyUnset (s : State) (outs : List ValueId) : Bool :=
  outs.any fun w => decide (s w = .tensor none)

/-- Formal argument `j` of the node is device-argument-typed. -/
def isDeviceArgAt (n : Node) (j : Nat) : Bool :=
  match n.schemaArgs.get? j with
  | some a => isDeviceArgumentType a
  | none => false

/-- The actual input at position `j` statically resolves to the `None`
variant. -/
def resolvesNoneAt (g : Graph) (n : Node) (j : Nat) : Bool :=
  match n.inputs.get? j with
  | some v => decide (g.constMap v = some .noneV)
  | none => false

/-- `t` refines `s`: each value keeps its type, except that a tensor with
no device may have received one. -/
def Refines (s t : State) : Prop :=
  ∀ v, t v = s v ∨ (s v = .tensor none ∧ ∃ d, t v = .tensor (some d))

/-- The changed flag of one step is accurate: the resulting state refines
the input state, and the flag is true exactly when some value changed. -/
def StepOK (s t : State) (c : Bool) : Prop :=
  Refines s t ∧ (c = true ↔ ∃ v, t v ≠ s v)

/-- Projection: the changed flag of a pass result, when it succeeded. -/
def resultChanged : Except Err (State × Bool) → Option Bool
  | .ok (_, c) => some c
  | .error _ => none

/-- Projection: the type of value `v` in a pass result, when it
succeeded. -/
def resultStateAt (v : ValueId) : Except Err (State × Bool) → Option VType
  | .ok (t, _) => some (t v)
  | .error _ => none

/-- Single static assignment well-formedness of a block, as the IR
guarantees it: no node reads or redefines a value defined by itself or by
a later node.  Concretely: a node's inputs avoid its own outputs, and both
the inputs and the outputs of a node avoid the outputs of every later
node. -/
def nodeDisj (n m : Node) : Bool :=
  n.inputs.all (fun v => !(m.outputs.contains v)) &&
    n.outputs.all (fun v => !(m.outputs.contains v))

/-- See `nodeDisj`. -/
def blockWF : List Node → Bool
  | [] => true
  | n :: rest =>
      n.inputs.all (fun v => !(n.outputs.contains v)) &&
        rest.all (fun m => nodeDisj n m) && blockWF rest

/-! ## Concrete example graphs used to exercise the claims -/

def sC1 : State := fun v =>
  if v = 0 then VType.tensor (some 7)
  else if v = 1 then VType.other else VType.tensor none

def nC1 : Node :=
  { kind := .aten 0, inputs := [0, 1], outputs := [2],
    schemaArgs := [.tensorT, .optionalT .deviceT] }

def gC1 : Graph :=
  { nodes := [nC1], constMap := fun v => if v = 1 then some .noneV else none }

def sW1 : State := fun v =>
  if v = 0 then VType.tensor (some 2)
  else if v = 1 then VType.other else VType.tensor none

def nW1 : Node :=
  { kind := .aten 0, inputs := [0, 1], outputs := [2],
    schemaArgs := [.tensorT, .optionalT .deviceT] }

def gW1 : Graph :=
  { nodes := [nW1], constMap := fun v => if v = 1 then some .noneV else none }

def sC2 : State := fun _ => VType.tensor (some 5)

def nC2 : Node :=
  { kind := .aten 0, inputs := [0], outputs := [1], schemaArgs := [.tensorT] }

def gC2 : Graph := { nodes := [nC2], constMap := fun _ => none }

def sW2 : State := fun v =>
  if v = 0 ∨ v = 1 then VType.tensor (some 4) else VType.tensor none

def nW2 : Node :=
  { kind := .aten 1, inputs := [0, 1, 2], outputs := [3],
    schemaArgs := [.tensorT, .tensorT, .tensorT] }

def gW2 : Graph := { nodes := [nW2], constMap := fun _ => none }

def sC3 : State := fun v =>
  if v = 0 then VType.tensor (some 9)
  else if v = 1 then VType.other else VType.tensor (some 4)

def nC3 : Node :=
  { kind := .aten 0, inputs := [0, 1], outputs := [2],
    schemaArgs := [.tensorT, .deviceT] }

def gC3 : Graph :=
  { nodes := [nC3],
    constMap := fun v => if v = 1 then some (.deviceV 4) else none }

def sW3 : State := fun v =>
  if v = 0 then VType.tensor (some 9)
  else if v = 1 then VType.other else VType.tensor none

def nW3 : Node :=
  { kind := .aten 2, inputs := [0, 1], outputs := [2],
    schemaArgs := [.tensorT, .deviceT] }

def gW3 : Graph :=
  { nodes := [nW3],
    constMap := fun v => if v = 1 then some (.deviceV 6) else none }

def sC4 : State := fun v => if v = 2 then VType.other else VType.tensor none

def nC4 : Node :=
  { kind := .listConstruct, inputs := [0, 1], outputs := [2], schemaArgs := [] }

def gC4 : Graph := { nodes := [nC4], constMap := fun _ => none }

def sW4 : State := fun _ => VType.tensor none

def nW4 : Node :=
  { kind := .listUnpack, inputs := [0], outputs := [1, 2], schemaArgs := [] }

def gW4 : Graph := { nodes := [nW4], constMap := fun _ => none }

def sW5 : State := fun v =>
  if v = 0 then VType.tensor (some 7) else VType.tensor none

def nW5 : Node :=
  { kind := .aten 0, inputs := [0, 1], outputs := [2],
    schemaArgs := [.tensorT, .tensorT] }

def gW5 : Graph := { nodes := [nW5], constMap := fun _ => none }

def tW5 : State := fun w => if w = 2 then VType.tensor (some 7) else sW5 w

def sW6 : State := fun v =>
  if v = 0 then VType.tensor (some 3) else VType.tensor none

def nW6 : Node :=
  { kind := .aten 4, inputs := [0, 1], outputs := [2],
    schemaArgs := [.tensorT, .tensorT] }

def gW6 : Graph := { nodes := [nW6], constMap := fun _ => none }

def tW6 : State := fun w => if w = 2 then VType.tensor (some 3) else sW6 w

def sW7 : State := fun v =>
  if v = 0 then VType.tensor (some 2)
  else if v = 1 then VType.tensor (some 2) else VType.other

def nW7 : Node :=
  { kind := .aten 5, inputs := [0], outputs := [1], schemaArgs := [.tensorT] }

def gW7 : Graph := { nodes := [nW7], constMap := fun _ => none }

def sC8 : State := fun v =>
  if v = 0 then VType.tensor (some 3)
  else if v = 1 then VType.other else VType.tensor none

def nC8 : Node :=
  { kind := .aten 0, inputs := [1, 0], outputs := [2],
    schemaArgs := [.optionalT .deviceT, .tensorT] }

def gC8 : Graph :=
  { nodes := [nC8], constMap := fun v => if v = 1 then some .noneV else none }

def sW8 : State := fun v =>
  if v = 0 then VType.tensor (some 3)
  else if v = 1 then VType.other else VType.tensor none

def nW8 : Node :=
  { kind := .aten 0, inputs := [1, 0], outputs := [2],
    schemaArgs := [.optionalT .deviceT, .tensorT] }

def gW8 : Graph := { nodes := [nW8], constMap := fun _ => none }

def sW9 : State := fun _ => VType.other

def nW9 : Node :=
  { kind := .ifK, inputs := [0], outputs := [1], schemaArgs := [] }

def gW9 : Graph := { nodes := [nW9], constMap := fun _ => none }

def sW10 : State := fun _ => VType.other

def nW10 : Node :=
  { kind := .loopK, inputs := [], outputs := [], schemaArgs := [] }

def gW10 : Graph := { nodes := [nW10], constMap := fun _ => none }

/-! ## Characterization of the output fan-out -/

theorem list_any_congr {α : Type} {l : List α} {f g : α → Bool}
    (h : ∀ x ∈ l, f x = g x) : l.any f = l.any g := by
  induction l with
  | nil => rfl
  | cons a l ih =>
    simp only [List.any_cons, h a (by simp)]
    rw [ih fun x hx => h x (by simp [hx])]

theorem srd_cons_other (s : State) (out : ValueId) (rest : List ValueId)
    (d : Device) (hso : s out = .other) :
    setReturnsToDevice s (out :: rest) d = setReturnsToDevice s rest d := by
  simp [setReturnsToDevice, hso]

theorem srd_cons_unset (s : State) (out : ValueId) (rest : List ValueId)
    (d : Device) (hso : s out = .tensor none) :
    setReturnsToDevice s (out :: rest) d =
      match setReturnsToDevice
          (fun w => if w = out then VType.tensor (some d) else s w) rest d with
      | .error e => .error e
      | .ok (s2, _) => .ok (s2, true) := by
  simp [setReturnsToDevice, hso, setDeviceType]

theorem srd_cons_same (s : State) (out : ValueId) (rest : List ValueId)
    (d d0 : Device) (hso : s out = .tensor (some d0)) (hd : d0 = d) :
    setReturnsToDevice s (out :: rest) d =
      match setReturnsToDevice s rest d with
      | .error e => .error e
      | .ok (s2, c2) => .ok (s2, c2) := by
  simp [setReturnsToDevice, hso, setDeviceType, hd]

theorem srd_cons_clash (s : State) (out : ValueId) (rest : List ValueId)
    (d d0 : Device) (hso : s out = .tensor (some d0)) (hd : d0 ≠ d) :
    setReturnsToDevice s (out :: rest) d = .error .overwriteDenied := by
  simp [setReturnsToDevice, hso, setDeviceType, hd]

theorem setReturnsToDevice_ok (s : State) (outs : List ValueId) (d : Device)
    (h : ¬ outConflict s d outs) :
    setReturnsToDevice s outs d = .ok (updOuts s outs d, anyUnset s outs) := by
  induction outs generalizing s with
  | nil =>
    have hu : updOuts s [] d = s := by funext w; simp [updOuts]
    rw [hu]; rfl
  | cons out rest ih =>
    have hrest : ¬ outConflict s d rest := by
      rintro ⟨o, ho, d0, h1, h2⟩
      exact h ⟨o, List.mem_cons_of_mem _ ho, d0, h1, h2⟩
    cases hso : s out with
    | other =>
      have hu : updOuts s rest d = updOuts s (out :: rest) d := by
        funext w
        by_cases hw : w = out
        · subst hw; simp [updOuts, hso, isTensorType]
        · simp [updOuts, List.mem_cons, hw]
      have ha : anyUnset s (out :: rest) = anyUnset s rest := by
        simp [anyUnset, List.any_cons, hso]
      rw [srd_cons_other s out rest d hso, ih _ hrest, hu, ha]
    | tensor dev =>
      cases dev with
      | none =>
        have hnc1 : ¬ outConflict
            (fun w => if w = out then VType.tensor (some d) else s w) d rest := by
          rintro ⟨o, ho, d0, h1, h2⟩
          by_cases hw : o = out
          · subst hw; simp at h1; exact h2 h1.symm
          · exact hrest ⟨o, ho, d0, by simpa [hw] using h1, h2⟩
        have hu : updOuts (fun w => if w = out then VType.tensor (some d) else s w)
            rest d = updOuts s (out :: rest) d := by
          funext w
          by_cases hw : w = out
          · subst hw; simp [updOuts, hso, isTensorType]
          · simp [updOuts, List.mem_cons, hw]
        have ha : anyUnset s (out :: rest) = true := by
          simp [anyUnset, List.any_cons, hso]
        rw [srd_cons_unset s out rest d hso, ih _ hnc1, hu, ha]
      | some d0 =>
        by_cases hd : d0 = d
        · have hu : updOuts s rest d = updOuts s (out :: rest) d := by
            funext w
            by_cases hw : w = out
            · subst hw; simp [updOuts, hso, isTensorType, hd]
            · simp [updOuts, List.mem_cons, hw]
          have ha : anyUnset s (out :: rest) = anyUnset s rest := by
            simp [anyUnset, List.any_cons, hso]
          rw [srd_cons_same s out rest d d0 hso hd, ih _ hrest, hu, ha]
        · exact absurd (show outConflict s d (out :: rest) from
            ⟨out, List.mem_cons_self _ _, d0, hso, hd⟩) h

theorem setReturnsToDevice_err (s : State) (outs : List ValueId) (d : Device)
    (h : outConflict s d outs) :
    setReturnsToDevice s outs d = .error .overwriteDenied := by
  induction outs generalizing s with
  | nil => rcases h with ⟨o, ho, _⟩; cases ho
  | cons out rest ih =>
    rcases h with ⟨o, ho, d0, h1, h2⟩
    cases hso : s out with
    | other =>
      rw [srd_cons_other s out rest d hso]
      apply ih
      rcases List.mem_cons.mp ho with h | h
      · subst h; rw [hso] at h1; cases h1
      · exact ⟨o, h, d0, h1, h2⟩
    | tensor dev =>
      cases dev with
      | none =>
        have hc1 : outConflict
            (fun w => if w = out then VType.tensor (some d) else s w) d rest := by
          rcases List.mem_cons.mp ho with h | h
          · subst h; rw [hso] at h1; exact absurd h1 (by simp)
          · refine ⟨o, h, d0, ?_, h2⟩
            have hne : o ≠ out := by rintro rfl; rw [hso] at h1; simp at h1
            simpa [hne] using h1
        rw [srd_cons_unset s out rest d hso, ih _ hc1]
      | some d0' =>
        by_cases hd : d0' = d
        · have hcr : outConflict s d rest := by
            rcases List.mem_cons.mp ho with h | h
            · subst h; rw [hso] at h1
              injection h1 with h1'; injection h1' with h1''
              exact absurd (h1''.symm.trans hd) h2
            · exact ⟨o, h, d0, h1, h2⟩
          rw [srd_cons_same s out rest d d0' hso hd, ih _ hcr]
        · exact srd_cons_clash s out rest d d0' hso hd

theorem setReturnsToDevice_ok_inv (s : State) (outs : List ValueId) (d : Device)
    (s' : State) (c : Bool) (h : setReturnsToDevice s outs d = .ok (s', c)) :
    ¬ outConflict s d outs ∧ s' = updOuts s outs d ∧ c = anyUnset s outs := by
  by_cases hc : outConflict s d outs
  · rw [setReturnsToDevice_err s outs d hc] at h; cases h
  · rw [setReturnsToDevice_ok s outs d hc] at h
    refine ⟨hc, ?_, ?_⟩
    · injection h with h'
      exact (congrArg Prod.fst h').symm
    · injection h with h'
      exact (congrArg Prod.snd h').symm

theorem setReturnsToDevice_err_inv (s : State) (outs : List ValueId) (d : Device)
    (e : Err) (h : setReturnsToDevice s outs d = .error e) :
    e = .overwriteDenied ∧ outConflict s d outs := by
  by_cases hc : outConflict s d outs
  · rw [setReturnsToDevice_err s outs d hc] at h
    injection h with h'
    exact ⟨h'.symm, hc⟩
  · rw [setReturnsToDevice_ok s outs d hc] at h; cases h

/-! ## Characterization of the common-device input scan -/

theorem findCommonDevice_some (s : State) (inps : List ValueId) (d : Device) :
    findCommonDevice s inps (some d) =
      if ∀ c ∈ knownInputDevices s inps, c = d then .ok (some d)
      else .error .inputDeviceMismatch := by
  induction inps with
  | nil => simp [findCommonDevice, knownInputDevices]
  | cons inp rest ih =>
    cases hsi : s inp with
    | other =>
      have hstep : findCommonDevice s (inp :: rest) (some d) =
          findCommonDevice s rest (some d) := by
        simp [findCommonDevice, hsi]
      have hk : knownInputDevices s (inp :: rest) = knownInputDevices s rest := by
        simp [knownInputDevices, hsi]
      rw [hstep, ih]; simp only [hk]
    | tensor dev =>
      cases dev with
      | none =>
        have hstep : findCommonDevice s (inp :: rest) (some d) =
            findCommonDevice s rest (some d) := by
          simp [findCommonDevice, hsi]
        have hk : knownInputDevices s (inp :: rest) = knownInputDevices s rest := by
          simp [knownInputDevices, hsi]
        rw [hstep, ih]; simp only [hk]
      | some cur =>
        have hk : knownInputDevices s (inp :: rest) =
            cur :: knownInputDevices s rest := by
          simp [knownInputDevices, hsi]
        by_cases hdc : d = cur
        · subst hdc
          have hstep : findCommonDevice s (inp :: rest) (some d) =
              findCommonDevice s rest (some d) := by
            simp [findCommonDevice, hsi]
          rw [hstep, ih]; simp only [hk]
          simp [List.forall_mem_cons]
        · have hstep : findCommonDevice s (inp :: rest) (some d) =
              .error .inputDeviceMismatch := by
            simp [findCommonDevice, hsi, hdc]
          rw [hstep]; simp only [hk]
          rw [if_neg fun hall => hdc ((hall cur (by simp)).symm)]

theorem findCommonDevice_none (s : State) (inps : List ValueId) :
    findCommonDevice s inps none =
      match knownInputDevices s inps with
      | [] => .ok none
      | d :: ds => if ∀ c ∈ ds, c = d then .ok (some d)
                   else .error .inputDeviceMismatch := by
  induction inps with
  | nil => rfl
  | cons inp rest ih =>
    cases hsi : s inp with
    | other =>
      have hstep : findCommonDevice s (inp :: rest) none =
          findCommonDevice s rest none := by
        simp [findCommonDevice, hsi]
      have hk : knownInputDevices s (inp :: rest) = knownInputDevices s rest := by
        simp [knownInputDevices, hsi]
      rw [hstep, ih]; simp only [hk]
    | tensor dev =>
      cases dev with
      | none =>
        have hstep : findCommonDevice s (inp :: rest) none =
            findCommonDevice s rest none := by
          simp [findCommonDevice, hsi]
        have hk : knownInputDevices s (inp :: rest) = knownInputDevices s rest := by
          simp [knownInputDevices, hsi]
        rw [hstep, ih]; simp only [hk]
      | some cur =>
        have hstep : findCommonDevice s (inp :: rest) none =
            findCommonDevice s rest (some cur) := by
          simp [findCommonDevice, hsi]
        have hk : knownInputDevices s (inp :: rest) =
            cur :: knownInputDevices s rest := by
          simp [knownInputDevices, hsi]
        rw [hstep, findCommonDevice_some]; simp only [hk]

theorem findCommonDevice_congr (s t : State) :
    ∀ (inps : List ValueId) (acc : Option Device),
      (∀ v ∈ inps, t v = s v) →
      findCommonDevice t inps acc = findCommonDevice s inps acc := by
  intro inps
  induction inps with
  | nil => intro acc _; rfl
  | cons inp rest ih =>
    intro acc h
    have hi : t inp = s inp := h inp (by simp)
    have hr : ∀ v ∈ rest, t v = s v := fun v hv => h v (by simp [hv])
    cases hsi : s inp with
    | other => simp [findCommonDevice, hi, hsi, ih _ hr]
    | tensor dev =>
      cases acc with
      | none => simp [findCommonDevice, hi, hsi, ih _ hr]
      | some d =>
        cases dev with
        | none => simp [findCommonDevice, hi, hsi, ih _ hr]
        | some cur =>
          by_cases hdc : d = cur <;>
            simp [findCommonDevice, hi, hsi, hdc, ih _ hr]

/-! ## The changed flag tracks exactly the refinements -/

theorem ok_pair_inv {a b : State} {x y : Bool}
    (h : (Except.ok (a, x) : Except Err (State × Bool)) = .ok (b, y)) :
    b = a ∧ y = x := by
  injection h with h1
  exact ⟨(congrArg Prod.fst h1).symm, (congrArg Prod.snd h1).symm⟩

theorem refines_refl (s : State) : Refines s s := fun _ => Or.inl rfl

theorem refines_trans {s t u : State} (h1 : Refines s t) (h2 : Refines t u) :
    Refines s u := by
  intro v
  rcases h1 v with h1v | ⟨ha, d1, hb⟩
  · rcases h2 v with h2v | ⟨hc, d2, hd⟩
    · exact Or.inl (h2v.trans h1v)
    · exact Or.inr ⟨h1v.symm.trans hc, d2, hd⟩
  · rcases h2 v with h2v | ⟨hc, d2, hd⟩
    · exact Or.inr ⟨ha, d1, h2v.trans hb⟩
    · exact absurd (hb.symm.trans hc) (by simp)

theorem refines_shape {s t : State} (h : Refines s t) (v : ValueId) :
    isTensorType (t v) = isTensorType (s v) := by
  rcases h v with he | ⟨ha, d, hb⟩
  · rw [he]
  · rw [ha, hb]; rfl

theorem stepOK_refl (s : State) : StepOK s s false := ⟨refines_refl s, by simp⟩

theorem stepOK_comp {s t u : State} {c1 c2 : Bool}
    (h1 : StepOK s t c1) (h2 : StepOK t u c2) : StepOK s u (c1 || c2) := by
  obtain ⟨r1, i1⟩ := h1
  obtain ⟨r2, i2⟩ := h2
  refine ⟨refines_trans r1 r2, ?_, ?_⟩
  · intro hor
    rcases Bool.or_eq_true_iff.mp hor with h | h
    · obtain ⟨v, hv⟩ := i1.mp h
      rcases r1 v with he | ⟨ha, d1, hb⟩
      · exact absurd he hv
      · rcases r2 v with he2 | ⟨hc, d2, hd⟩
        · exact ⟨v, by rw [he2, hb, ha]; simp⟩
        · exact absurd (hb.symm.trans hc) (by simp)
    · obtain ⟨v, hv⟩ := i2.mp h
      rcases r2 v with he | ⟨hc, d2, hd⟩
      · exact absurd he hv
      · rcases r1 v with he1 | ⟨ha, d1, hb⟩
        · exact ⟨v, by rw [hd, ← he1, hc]; simp⟩
        · exact absurd (hb.symm.trans hc) (by simp)
  · rintro ⟨v, hv⟩
    by_contra hor
    have h1f : c1 ≠ true := fun hh => hor (by simp [hh])
    have h2f : c2 ≠ true := fun hh => hor (by simp [hh])
    have e1 : ¬ ∃ v, t v ≠ s v := fun he => h1f (i1.mpr he)
    have e2 : ¬ ∃ v, u v ≠ t v := fun he => h2f (i2.mpr he)
    push_neg at e1 e2
    exact hv ((e2 v).trans (e1 v))

theorem srd_stepOK (s : State) (outs : List ValueId) (d : Device)
    (s' : State) (c : Bool) (h : setReturnsToDevice s outs d = .ok (s', c)) :
    StepOK s s' c := by
  obtain ⟨hnc, hs, hc⟩ := setReturnsToDevice_ok_inv s outs d s' c h
  subst hs; subst hc
  refine ⟨?_, ?_, ?_⟩
  · intro v
    by_cases hv : v ∈ outs ∧ isTensorType (s v) = true
    · have hvv : updOuts s outs d v = .tensor (some d) := by simp [updOuts, hv]
      obtain ⟨hmem, hten⟩ := hv
      cases hsv : s v with
      | other => rw [hsv] at hten; simp [isTensorType] at hten
      | tensor dev =>
        cases dev with
        | none => exact Or.inr ⟨rfl, d, hvv⟩
        | some d0 =>
          have hd0 : d0 = d := by
            by_contra hne
            exact hnc ⟨v, hmem, d0, hsv, hne⟩
          subst hd0
          exact Or.inl hvv
    · exact Or.inl (by simp [updOuts, hv])
  · intro ha
    obtain ⟨w, hw, hdec⟩ := List.any_eq_true.mp ha
    have hsw : s w = .tensor none := of_decide_eq_true hdec
    refine ⟨w, ?_⟩
    have hvv : updOuts s outs d w = .tensor (some d) := by
      simp [updOuts, hw, hsw, isTensorType]
    rw [hvv, hsw]; simp
  · rintro ⟨v, hv⟩
    by_cases hcond : v ∈ outs ∧ isTensorType (s v) = true
    · obtain ⟨hmem, hten⟩ := hcond
      cases hsv : s v with
      | other => rw [hsv] at hten; simp [isTensorType] at hten
      | tensor dev =>
        cases dev with
        | none => exact List.any_eq_true.mpr ⟨v, hmem, by simp [hsv]⟩
        | some d0 =>
          have hd0 : d0 = d := by
            by_contra hne
            exact hnc ⟨v, hmem, d0, hsv, hne⟩
          subst hd0
          exact absurd (by simp [updOuts, hmem, hsv, isTensorType]) hv
    · exact absurd (by simp [updOuts, hcond]) hv

theorem pwnd_stepOK (s : State) (n : Node) (s' : State) (c : Bool)
    (h : propWithNoDevice s n = .ok (s', c)) : StepOK s s' c := by
  unfold propWithNoDevice at h
  split at h
  · cases h
  · obtain ⟨h1, h2⟩ := ok_pair_inv h
    subst h1; subst h2
    exact stepOK_refl _
  · exact srd_stepOK _ _ _ _ _ h

theorem scan_stepOK (g : Graph) (n : Node) :
    ∀ (args : List SchemaType) (i : Nat) (s s' : State) (c : Bool),
      scanDeviceArgs g s n args i = .ok (s', c) → StepOK s s' c := by
  intro args
  induction args with
  | nil => intro i s s' c h; exact pwnd_stepOK s n s' c h
  | cons a rest ih =>
    intro i s s' c h
    unfold scanDeviceArgs at h
    split at h
    · split at h
      · cases h
      · split at h
        · obtain ⟨h1, h2⟩ := ok_pair_inv h
          subst h1; subst h2
          exact stepOK_refl _
        · split at h
          · exact ih _ _ _ _ h
          · exact srd_stepOK _ _ _ _ _ h
          · obtain ⟨h1, h2⟩ := ok_pair_inv h
            subst h1; subst h2
            exact stepOK_refl _
    · exact ih _ _ _ _ h

theorem processNode_stepOK (g : Graph) (s : State) (n : Node) (s' : State)
    (c : Bool) (h : processNode g s n = .ok (s', c)) : StepOK s s' c := by
  unfold processNode at h
  split at h
  · cases h
  · cases h
  · cases h
  · cases h
  · split at h
    · obtain ⟨h1, h2⟩ := ok_pair_inv h
      subst h1; subst h2
      exact stepOK_refl _
    · split at h
      · obtain ⟨h1, h2⟩ := ok_pair_inv h
        subst h1; subst h2
        exact stepOK_refl _
      · cases h
      · cases h
      · exact scan_stepOK g n n.schemaArgs 0 _ _ _ h
      · cases h

theorem processBlock_stepOK (g : Graph) :
    ∀ (ns : List Node) (s s' : State) (c : Bool),
      processBlock g s ns = .ok (s', c) → StepOK s s' c := by
  intro ns
  induction ns with
  | nil =>
    intro s s' c h
    obtain ⟨h1, h2⟩ := ok_pair_inv h
    subst h1; subst h2
    exact stepOK_refl _
  | cons nd rest ih =>
    intro s s' c h
    unfold processBlock at h
    split at h
    · cases h
    · rename_i s1 c1 heq
      split at h
      · cases h
      · rename_i heq2
        obtain ⟨h1, h2⟩ := ok_pair_inv h
        subst h1; subst h2
        exact stepOK_comp (processNode_stepOK g s nd s1 c1 heq)
          (ih _ _ _ heq2)

/-! ## Frame lemmas: only a node's own outputs are ever mutated -/

theorem srd_frame (s : State) (outs : List ValueId) (d : Device) (s' : State)
    (c : Bool) (h : setReturnsToDevice s outs d = .ok (s', c)) :
    ∀ w, w ∉ outs → s' w = s w := by
  obtain ⟨_, hs, _⟩ := setReturnsToDevice_ok_inv s outs d s' c h
  subst hs
  intro w hw
  simp [updOuts, hw]

theorem pwnd_frame (s : State) (n : Node) (s' : State) (c : Bool)
    (h : propWithNoDevice s n = .ok (s', c)) :
    ∀ w, w ∉ n.outputs → s' w = s w := by
  unfold propWithNoDevice at h
  split at h
  · cases h
  · obtain ⟨h1, _⟩ := ok_pair_inv h
    subst h1
    intro w _; rfl
  · exact srd_frame _ _ _ _ _ h

theorem scan_frame (g : Graph) (n : Node) :
    ∀ (args : List SchemaType) (i : Nat) (s s' : State) (c : Bool),
      scanDeviceArgs g s n args i = .ok (s', c) →
      ∀ w, w ∉ n.outputs → s' w = s w := by
  intro args
  induction args with
  | nil => intro i s s' c h; exact pwnd_frame s n s' c h
  | cons a rest ih =>
    intro i s s' c h
    unfold scanDeviceArgs at h
    split at h
    · split at h
      · cases h
      · split at h
        · obtain ⟨h1, _⟩ := ok_pair_inv h
          subst h1
          intro w _; rfl
        · split at h
          · exact ih _ _ _ _ h
          · exact srd_frame _ _ _ _ _ h
          · obtain ⟨h1, _⟩ := ok_pair_inv h
            subst h1
            intro w _; rfl
    · exact ih _ _ _ _ h

theorem processNode_frame (g : Graph) (s : State) (n : Node) (s' : State)
    (c : Bool) (h : processNode g s n = .ok (s', c)) :
    ∀ w, w ∉ n.outputs → s' w = s w := by
  unfold processNode at h
  split at h
  · cases h
  · cases h
  · cases h
  · cases h
  · split at h
    · obtain ⟨h1, _⟩ := ok_pair_inv h
      subst h1
      intro w _; rfl
    · split at h
      · obtain ⟨h1, _⟩ := ok_pair_inv h
        subst h1
        intro w _; rfl
      · cases h
      · cases h
      · exact scan_frame g n n.schemaArgs 0 _ _ _ h
      · cases h

theorem processBlock_frame (g : Graph) :
    ∀ (ns : List Node) (s s' : State) (c : Bool),
      processBlock g s ns = .ok (s', c) →
      ∀ w, (∀ m ∈ ns, w ∉ m.outputs) → s' w = s w := by
  intro ns
  induction ns with
  | nil =>
    intro s s' c h w _
    obtain ⟨h1, _⟩ := ok_pair_inv h
    subst h1; rfl
  | cons nd rest ih =>
    intro s s' c h w hw
    unfold processBlock at h
    split at h
    · cases h
    · rename_i s1 c1 heq
      split at h
      · cases h
      · rename_i heq2
        obtain ⟨h1, _⟩ := ok_pair_inv h
        subst h1
        have h2 := ih _ _ _ heq2 w (fun m hm => hw m (List.mem_cons_of_mem _ hm))
        have h3 := processNode_frame g s nd s1 c1 heq w (hw nd (List.mem_cons_self _ _))
        exact h2.trans h3

/-! ## Which assertions can actually fire -/

theorem srd_err_shape (s : State) (outs : List ValueId) (d : Device) (e : Err)
    (h : setReturnsToDevice s outs d = .error e) : e = .overwriteDenied :=
  (setReturnsToDevice_err_inv s outs d e h).1

theorem fcd_err_shape (s : State) (inps : List ValueId) (acc : Option Device)
    (e : Err) (h : findCommonDevice s inps acc = .error e) :
    e = .inputDeviceMismatch := by
  cases acc with
  | some d =>
    rw [findCommonDevice_some] at h
    split at h
    · cases h
    · injection h with h1
      exact h1.symm
  | none =>
    rw [findCommonDevice_none] at h
    split at h
    · cases h
    · split at h
      · cases h
      · injection h with h1
        exact h1.symm

theorem pwnd_err_shape (s : State) (n : Node) (e : Err)
    (h : propWithNoDevice s n = .error e) :
    e = .inputDeviceMismatch ∨ e = .overwriteDenied := by
  unfold propWithNoDevice at h
  split at h
  · rename_i e0 heq
    injection h with h1
    subst h1
    exact Or.inl (fcd_err_shape _ _ _ _ heq)
  · cases h
  · exact Or.inr (srd_err_shape _ _ _ _ h)

theorem scan_err_shape (g : Graph) (n : Node) :
    ∀ (args : List SchemaType) (i : Nat) (s : State) (e : Err),
      scanDeviceArgs g s n args i = .error e → e ≠ .expectingTensor := by
  intro args
  induction args with
  | nil =>
    intro i s e h
    rcases pwnd_err_shape s n e h with h1 | h1 <;> simp [h1]
  | cons a rest ih =>
    intro i s e h
    unfold scanDeviceArgs at h
    split at h
    · split at h
      · injection h with h1
        subst h1
        simp
      · split at h
        · cases h
        · split at h
          · exact ih _ _ _ h
          · rw [srd_err_shape _ _ _ _ h]
            simp
          · cases h
    · exact ih _ _ _ h

theorem processNode_err_shape (g : Graph) (s : State) (n : Node) (e : Err)
    (h : processNode g s n = .error e) : e ≠ .expectingTensor := by
  unfold processNode at h
  split at h
  · injection h with h1; subst h1; simp
  · injection h with h1; subst h1; simp
  · injection h with h1; subst h1; simp
  · injection h with h1; subst h1; simp
  · split at h
    · cases h
    · split at h
      · cases h
      · injection h with h1; subst h1; simp
      · injection h with h1; subst h1; simp
      · exact scan_err_shape g n n.schemaArgs 0 _ _ h
      · injection h with h1; subst h1; simp

theorem processBlock_err_shape (g : Graph) :
    ∀ (ns : List Node) (s : State) (e : Err),
      processBlock g s ns = .error e → e ≠ .expectingTensor := by
  intro ns
  induction ns with
  | nil => intro s e h; cases h
  | cons nd rest ih =>
    intro s e h
    unfold processBlock at h
    split at h
    · rename_i e0 heq
      injection h with h1
      subst h1
      exact processNode_err_shape g s nd e0 heq
    · split at h
      · rename_i heq2
        injection h with h1
        subst h1
        exact ih _ _ heq2
      · cases h

/-! ## Step equations for the argument scan and the block fold -/

theorem pwnd_eq_err (s : State) (n : Node) (e : Err)
    (hf : findCommonDevice s n.inputs none = .error e) :
    propWithNoDevice s n = .error e := by
  simp [propWithNoDevice, hf]

theorem pwnd_eq_none (s : State) (n : Node)
    (hf : findCommonDevice s n.inputs none = .ok none) :
    propWithNoDevice s n = .ok (s, false) := by
  simp [propWithNoDevice, hf]

theorem pwnd_eq_some (s : State) (n : Node) (d : Device)
    (hf : findCommonDevice s n.inputs none = .ok (some d)) :
    propWithNoDevice s n = setReturnsToDevice s n.outputs d := by
  simp [propWithNoDevice, hf]

theorem scan_cons_nodev (g : Graph) (s : State) (n : Node) (a : SchemaType)
    (rest : List SchemaType) (i : Nat) (hda : isDeviceArgumentType a = false) :
    scanDeviceArgs g s n (a :: rest) i = scanDeviceArgs g s n rest (i + 1) := by
  simp [scanDeviceArgs, hda]

theorem scan_cons_oob (g : Graph) (s : State) (n : Node) (a : SchemaType)
    (rest : List SchemaType) (i : Nat) (hda : isDeviceArgumentType a = true)
    (hv : n.inputs.get? i = none) :
    scanDeviceArgs g s n (a :: rest) i = .error .indexOutOfRange := by
  have hv1 := hv
  rw [List.get?_eq_getElem?] at hv1
  simp [scanDeviceArgs, hda, hv1]

theorem scan_cons_dyn (g : Graph) (s : State) (n : Node) (a : SchemaType)
    (rest : List SchemaType) (i : Nat) (v : ValueId)
    (hda : isDeviceArgumentType a = true) (hv : n.inputs.get? i = some v)
    (hcm : g.constMap v = none) :
    scanDeviceArgs g s n (a :: rest) i = .ok (s, false) := by
  have hv1 := hv
  rw [List.get?_eq_getElem?] at hv1
  simp [scanDeviceArgs, hda, hv1, hcm]

theorem scan_cons_none (g : Graph) (s : State) (n : Node) (a : SchemaType)
    (rest : List SchemaType) (i : Nat) (v : ValueId)
    (hda : isDeviceArgumentType a = true) (hv : n.inputs.get? i = some v)
    (hcm : g.constMap v = some .noneV) :
    scanDeviceArgs g s n (a :: rest) i = scanDeviceArgs g s n rest (i + 1) := by
  have hv1 := hv
  rw [List.get?_eq_getElem?] at hv1
  simp [scanDeviceArgs, hda, hv1, hcm]

theorem scan_cons_dev (g : Graph) (s : State) (n : Node) (a : SchemaType)
    (rest : List SchemaType) (i : Nat) (v : ValueId) (d : Device)
    (hda : isDeviceArgumentType a = true) (hv : n.inputs.get? i = some v)
    (hcm : g.constMap v = some (.deviceV d)) :
    scanDeviceArgs g s n (a :: rest) i = setReturnsToDevice s n.outputs d := by
  have hv1 := hv
  rw [List.get?_eq_getElem?] at hv1
  simp [scanDeviceArgs, hda, hv1, hcm]

theorem scan_cons_other (g : Graph) (s : State) (n : Node) (a : SchemaType)
    (rest : List SchemaType) (i : Nat) (v : ValueId)
    (hda : isDeviceArgumentType a = true) (hv : n.inputs.get? i = some v)
    (hcm : g.constMap v = some .otherV) :
    scanDeviceArgs g s n (a :: rest) i = .ok (s, false) := by
  have hv1 := hv
  rw [List.get?_eq_getElem?] at hv1
  simp [scanDeviceArgs, hda, hv1, hcm]

theorem processBlock_cons_eq (g : Graph) (s : State) (nd : Node)
    (rest : List Node) (s1 : State) (c1 : Bool)
    (h1 : processNode g s nd = .ok (s1, c1)) (s2 : State) (c2 : Bool)
    (h2 : processBlock g s1 rest = .ok (s2, c2)) :
    processBlock g s (nd :: rest) = .ok (s2, c1 || c2) := by
  simp [processBlock, h1, h2]

theorem processBlock_cons_err (g : Graph) (s : State) (nd : Node)
    (rest : List Node) (e : Err) (h1 : processNode g s nd = .error e) :
    processBlock g s (nd :: rest) = .error e := by
  simp [processBlock, h1]

/-! ## Skipping a prefix of none-resolving or non-device formals -/

theorem scan_skip (g : Graph) (s : State) (n : Node) :
    ∀ (pre rest : List SchemaType) (i0 : Nat),
      (∀ j, (hj : j < pre.length) →
        isDeviceArgumentType (pre.get ⟨j, hj⟩) = true →
        resolvesNoneAt g n (i0 + j) = true) →
      scanDeviceArgs g s n (pre ++ rest) i0 =
        scanDeviceArgs g s n rest (i0 + pre.length) := by
  intro pre
  induction pre with
  | nil => intro rest i0 _; simp
  | cons a pre ih =>
    intro rest i0 hres
    have hshift : ∀ j, (hj : j < pre.length) →
        isDeviceArgumentType (pre.get ⟨j, hj⟩) = true →
        resolvesNoneAt g n (i0 + 1 + j) = true := by
      intro j hj hd
      have h1 := hres (j + 1) (by simpa using Nat.succ_lt_succ hj) hd
      have harith : i0 + (j + 1) = i0 + 1 + j := by omega
      rw [harith] at h1
      exact h1
    have hnext : scanDeviceArgs g s n (pre ++ rest) (i0 + 1) =
        scanDeviceArgs g s n rest (i0 + 1 + pre.length) := ih rest (i0 + 1) hshift
    have harith2 : i0 + 1 + pre.length = i0 + (a :: pre).length := by
      simp only [List.length_cons]
      omega
    by_cases hda : isDeviceArgumentType a = true
    · have h0 := hres 0 (by simp) hda
      rw [Nat.add_zero] at h0
      cases hv : n.inputs.get? i0 with
      | none =>
        unfold resolvesNoneAt at h0
        rw [hv] at h0
        cases h0
      | some v =>
        have hcm : g.constMap v = some .noneV := by
          unfold resolvesNoneAt at h0
          rw [hv] at h0
          exact of_decide_eq_true h0
        rw [show (a :: pre) ++ rest = a :: (pre ++ rest) from rfl,
          scan_cons_none g s n a (pre ++ rest) i0 v hda hv hcm, hnext, harith2]
    · rw [show (a :: pre) ++ rest = a :: (pre ++ rest) from rfl,
        scan_cons_nodev g s n a (pre ++ rest) i0 (by simpa using hda), hnext,
        harith2]

/-! ## Stability: a second visit to an already-processed node is a no-op -/

theorem srd_stable (s s' t : State) (outs : List ValueId) (d : Device) (c : Bool)
    (h : setReturnsToDevice s outs d = .ok (s', c))
    (hout : ∀ w ∈ outs, t w = s' w) :
    setReturnsToDevice t outs d = .ok (t, false) := by
  obtain ⟨hnc, hs, _⟩ := setReturnsToDevice_ok_inv s outs d s' c h
  subst hs
  have hnct : ¬ outConflict t d outs := by
    rintro ⟨o, ho, d0, h1, h2⟩
    rw [hout o ho] at h1
    by_cases hcond : o ∈ outs ∧ isTensorType (s o) = true
    · rw [show updOuts s outs d o = .tensor (some d) from by simp [updOuts, hcond]]
        at h1
      injection h1 with h1a
      injection h1a with h1b
      exact h2 h1b.symm
    · rw [show updOuts s outs d o = s o from by simp [updOuts, hcond]] at h1
      exact hcond ⟨ho, by rw [h1]; rfl⟩
  rw [setReturnsToDevice_ok t outs d hnct]
  have hupd : updOuts t outs d = t := by
    funext w
    by_cases hcond : w ∈ outs ∧ isTensorType (t w) = true
    · obtain ⟨hmem, hten⟩ := hcond
      have h1 : t w = updOuts s outs d w := hout w hmem
      by_cases hc2 : w ∈ outs ∧ isTensorType (s w) = true
      · have h2 : updOuts s outs d w = .tensor (some d) := by simp [updOuts, hc2]
        have h3 : t w = .tensor (some d) := h1.trans h2
        rw [show updOuts t outs d w = .tensor (some d) from by
          simp [updOuts, hmem, hten], h3]
      · have h2 : updOuts s outs d w = s w := by simp [updOuts, hc2]
        have h3 : t w = s w := h1.trans h2
        rw [h3] at hten
        exact absurd ⟨hmem, hten⟩ hc2
    · simp [updOuts, hcond]
  have hau : anyUnset t outs = false := by
    unfold anyUnset
    refine List.any_eq_false.mpr ?_
    intro w hw
    have h1 : t w = updOuts s outs d w := hout w hw
    by_cases hc2 : w ∈ outs ∧ isTensorType (s w) = true
    · have h2 : updOuts s outs d w = .tensor (some d) := by simp [updOuts, hc2]
      rw [h1, h2]
      simp
    · have h2 : updOuts s outs d w = s w := by simp [updOuts, hc2]
      rw [h1, h2]
      cases hsw : s w with
      | other => simp
      | tensor dev => exact absurd ⟨hw, by rw [hsw]; rfl⟩ hc2
  rw [hupd, hau]

theorem scan_stable (g : Graph) (n : Node) :
    ∀ (args : List SchemaType) (i : Nat) (s s' t : State) (c : Bool),
      scanDeviceArgs g s n args i = .ok (s', c) →
      (∀ v ∈ n.inputs, t v = s v) →
      (∀ w ∈ n.outputs, t w = s' w) →
      scanDeviceArgs g t n args i = .ok (t, false) := by
  intro args
  induction args with
  | nil =>
    intro i s s' t c h hin hout
    show propWithNoDevice t n = .ok (t, false)
    have hcongr := findCommonDevice_congr s t n.inputs none (fun v hv => hin v hv)
    have h1 : propWithNoDevice s n = .ok (s', c) := h
    cases hf : findCommonDevice s n.inputs none with
    | error e => rw [pwnd_eq_err s n e hf] at h1; cases h1
    | ok od =>
      cases od with
      | none =>
        rw [pwnd_eq_none s n hf] at h1
        obtain ⟨h2, _⟩ := ok_pair_inv h1
        subst h2
        exact pwnd_eq_none t n (hcongr.trans hf)
      | some d =>
        rw [pwnd_eq_some s n d hf] at h1
        rw [pwnd_eq_some t n d (hcongr.trans hf)]
        exact srd_stable s s' t n.outputs d c h1 hout
  | cons a rest ih =>
    intro i s s' t c h hin hout
    by_cases hda : isDeviceArgumentType a = true
    · cases hv : n.inputs.get? i with
      | none => rw [scan_cons_oob g s n a rest i hda hv] at h; cases h
      | some v =>
        cases hcm : g.constMap v with
        | none =>
          rw [scan_cons_dyn g s n a rest i v hda hv hcm] at h
          obtain ⟨h1, _⟩ := ok_pair_inv h
          subst h1
          rw [scan_cons_dyn g t n a rest i v hda hv hcm]
        | some iv =>
          cases iv with
          | noneV =>
            rw [scan_cons_none g s n a rest i v hda hv hcm] at h
            rw [scan_cons_none g t n a rest i v hda hv hcm]
            exact ih _ _ _ _ _ h hin hout
          | deviceV d =>
            rw [scan_cons_dev g s n a rest i v d hda hv hcm] at h
            rw [scan_cons_dev g t n a rest i v d hda hv hcm]
            exact srd_stable s s' t n.outputs d c h hout
          | otherV =>
            rw [scan_cons_other g s n a rest i v hda hv hcm] at h
            obtain ⟨h1, _⟩ := ok_pair_inv h
            subst h1
            rw [scan_cons_other g t n a rest i v hda hv hcm]
    · have hda1 : isDeviceArgumentType a = false := by simpa using hda
      rw [scan_cons_nodev g s n a rest i hda1] at h
      rw [scan_cons_nodev g t n a rest i hda1]
      exact ih _ _ _ _ _ h hin hout

theorem processNode_stable (g : Graph) (s s' t : State) (n : Node) (c : Bool)
    (h : processNode g s n = .ok (s', c))
    (hin : ∀ v ∈ n.inputs, t v = s v)
    (hout : ∀ w ∈ n.outputs, t w = s' w) :
    processNode g t n = .ok (t, false) := by
  have href : Refines s s' := (processNode_stepOK g s n s' c h).1
  have hany : (n.outputs.any fun v => isTensorType (t v)) =
      (n.outputs.any fun v => isTensorType (s v)) := by
    apply list_any_congr
    intro w hw
    rw [hout w hw]
    exact refines_shape href w
  cases hk : n.kind with
  | ifK => simp [processNode, hk] at h
  | loopK => simp [processNode, hk] at h
  | callMethod => simp [processNode, hk] at h
  | callFunction => simp [processNode, hk] at h
  | constant => simp [processNode, hk]
  | listConstruct =>
    simp only [processNode, hk] at h
    split at h
    · rename_i hcond
      obtain ⟨h1, _⟩ := ok_pair_inv h
      subst h1
      simp only [processNode, hk, hany]
      rw [if_pos hcond]
    · cases h
  | listUnpack =>
    simp only [processNode, hk] at h
    split at h
    · rename_i hcond
      obtain ⟨h1, _⟩ := ok_pair_inv h
      subst h1
      simp only [processNode, hk, hany]
      rw [if_pos hcond]
    · cases h
  | otherKind =>
    simp only [processNode, hk] at h
    split at h
    · rename_i hcond
      obtain ⟨h1, _⟩ := ok_pair_inv h
      subst h1
      simp only [processNode, hk, hany]
      rw [if_pos hcond]
    · cases h
  | aten op =>
    simp only [processNode, hk] at h
    split at h
    · rename_i hcond
      obtain ⟨h1, _⟩ := ok_pair_inv h
      subst h1
      simp only [processNode, hk, hany]
      rw [if_pos hcond]
    · rename_i hcond
      have hscan : scanDeviceArgs g t n n.schemaArgs 0 = .ok (t, false) :=
        scan_stable g n n.schemaArgs 0 s s' t c h hin hout
      simp only [processNode, hk, hany]
      rw [if_neg hcond]
      exact hscan

/-! ## Idempotence of the sweep on well-formed blocks -/

theorem blockWF_cons {nd : Node} {rest : List Node}
    (h : blockWF (nd :: rest) = true) :
    (∀ v ∈ nd.inputs, v ∉ nd.outputs) ∧
      (∀ m ∈ rest,
        (∀ v ∈ nd.inputs, v ∉ m.outputs) ∧ (∀ v ∈ nd.outputs, v ∉ m.outputs)) ∧
      blockWF rest = true := by
  simp only [blockWF, Bool.and_eq_true, List.all_eq_true] at h
  obtain ⟨⟨h1, h2⟩, h3⟩ := h
  refine ⟨?_, ?_, h3⟩
  · intro v hv
    simpa using h1 v hv
  · intro m hm
    have h4 := h2 m hm
    simp only [nodeDisj, Bool.and_eq_true, List.all_eq_true] at h4
    obtain ⟨ha, hb⟩ := h4
    exact ⟨fun v hv => by simpa using ha v hv,
      fun v hv => by simpa using hb v hv⟩

theorem processBlock_idem (g : Graph) :
    ∀ (ns : List Node) (s t : State) (c : Bool),
      blockWF ns = true →
      processBlock g s ns = .ok (t, c) →
      processBlock g t ns = .ok (t, false) := by
  intro ns
  induction ns with
  | nil =>
    intro s t c _ h
    obtain ⟨h1, _⟩ := ok_pair_inv h
    subst h1
    rfl
  | cons nd rest ih =>
    intro s t c hwf h
    obtain ⟨hw1, hw2, hw3⟩ := blockWF_cons hwf
    unfold processBlock at h
    split at h
    · cases h
    · rename_i s1 c1 heq
      split at h
      · cases h
      · rename_i heq2
        obtain ⟨h1, _⟩ := ok_pair_inv h
        subst h1
        have hin : ∀ v ∈ nd.inputs, t v = s v := by
          intro v hv
          have ht1 : t v = s1 v :=
            processBlock_frame g rest s1 t _ heq2 v
              (fun m hm => (hw2 m hm).1 v hv)
          have ht2 : s1 v = s v :=
            processNode_frame g s nd s1 c1 heq v (hw1 v hv)
          exact ht1.trans ht2
        have hout : ∀ w ∈ nd.outputs, t w = s1 w := by
          intro w hw
          exact processBlock_frame g rest s1 t _ heq2 w
            (fun m hm => (hw2 m hm).2 w hw)
        have hnd : processNode g t nd = .ok (t, false) :=
          processNode_stable g s s1 t nd c1 heq hin hout
        have hrest : processBlock g t rest = .ok (t, false) :=
          ih s1 t _ hw3 heq2
        exact processBlock_cons_eq g t nd rest t false hnd t false hrest

/-! ## Claim theorems -/

theorem processNode_badkind (g : Graph) (s : State) (n : Node)
    (hk : n.kind = .ifK ∨ n.kind = .loopK ∨ n.kind = .callMethod ∨
      n.kind = .callFunction) :
    processNode g s n = .error .notHandled := by
  rcases hk with hk | hk | hk | hk <;> simp [processNode, hk]

theorem processBlock_badkind_no_ok (g : Graph) (n : Node)
    (hk : n.kind = .ifK ∨ n.kind = .loopK ∨ n.kind = .callMethod ∨
      n.kind = .callFunction) :
    ∀ (ns : List Node) (s : State), n ∈ ns →
      ∀ r, processBlock g s ns ≠ .ok r := by
  intro ns
  induction ns with
  | nil => intro s hmem; cases hmem
  | cons nd rest ih =>
    intro s hmem r h
    rcases List.mem_cons.mp hmem with hEq | hmem2
    · subst hEq
      rw [processBlock_cons_err g s n rest _ (processNode_badkind g s n hk)]
        at h
      cases h
    · unfold processBlock at h
      split at h
      · cases h
      · rename_i s1 c1 heq
        split at h
        · cases h
        · rename_i heq2
          exact ih s1 hmem2 _ heq2

/-- Claim C9: a node of conditional-branch, loop, call-method or
call-function kind makes the driver abort fatally ("not handled"), before
the tensor-output test (no hypothesis on the outputs is needed), and a
block containing such a node can never complete normally, so no further
node is processed. -/
theorem control_flow_kinds_abort_unconditionally (g : Graph) (s : State)
    (n : Node)
    (hk : n.kind = .ifK ∨ n.kind = .loopK ∨ n.kind = .callMethod ∨
      n.kind = .callFunction) :
    processNode g s n = .error .notHandled ∧
      ∀ (pre post : List Node) (s2 : State) (r : State × Bool),
        processBlock g s2 (pre ++ n :: post) ≠ .ok r := by
  refine ⟨processNode_badkind g s n hk, ?_⟩
  intro pre post s2 r
  exact processBlock_badkind_no_ok g n hk (pre ++ n :: post) s2 (by simp) r

/-- Witness for C9: a concrete conditional node whose only output is not
tensor-typed still aborts. -/
theorem control_flow_kinds_abort_unconditionally_wit :
    (nW9.kind = NodeKind.ifK ∨ nW9.kind = NodeKind.loopK ∨
        nW9.kind = NodeKind.callMethod ∨ nW9.kind = NodeKind.callFunction) ∧
      (processNode gW9 sW9 nW9 = .error .notHandled ∧
        ∀ (pre post : List Node) (s2 : State) (r : State × Bool),
          processBlock gW9 s2 (pre ++ nW9 :: post) ≠ .ok r) :=
  ⟨Or.inl rfl,
    control_flow_kinds_abort_unconditionally gW9 sW9 nW9 (Or.inl rfl)⟩

/-- Claim C10: every fatal abort of the pass carries an assertion tag other
than "Expecting a tensor type": the fan-out helper only hands
tensor-typed outputs to the single-value setter, so that internal
assertion is unreachable in any run of the pass. -/
theorem expecting_tensor_assert_unreachable (g : Graph) (s : State) (e : Err)
    (h : DeviceTypePropagation g s = .error e) : e ≠ .expectingTensor :=
  processBlock_err_shape g g.nodes s e h

/-- Witness for C10 at a concrete aborting run (a loop node). -/
theorem expecting_tensor_assert_unreachable_wit :
    DeviceTypePropagation gW10 sW10 = .error .notHandled ∧
      Err.notHandled ≠ Err.expectingTensor :=
  ⟨rfl, expecting_tensor_assert_unreachable gW10 sW10 .notHandled rfl⟩

/-- Claim C4 (amended): a container-construct or container-destructure
node aborts fatally ("not supported IR") whenever it has a tensor-typed
output.  A container-destructure of tensors has tensor-typed outputs and
so always aborts; a container-construct of tensors has a single
container-typed output, fails the tensor-output test, and is silently
skipped (see the counterexample). -/
theorem container_nodes_with_tensor_output_abort (g : Graph) (s : State)
    (n : Node) (hk : n.kind = .listConstruct ∨ n.kind = .listUnpack)
    (hout : (n.outputs.any fun v => isTensorType (s v)) = true) :
    processNode g s n = .error .notSupportedIR := by
  rcases hk with hk | hk <;> simp [processNode, hk, hout]

/-- Counterexample to C4 as stated: a container-construct node over
tensor inputs has a container-typed (non-tensor) output, and the driver
silently skips it (normal "no change" result, no abort). -/
theorem list_construct_silently_skipped_cex :
    nC4.kind = NodeKind.listConstruct ∧
      isTensorType (sC4 0) = true ∧ isTensorType (sC4 1) = true ∧
      processNode gC4 sC4 nC4 = .ok (sC4, false) :=
  ⟨rfl, rfl, rfl, rfl⟩

/-- Witness for C4 at a concrete container-destructure of tensors. -/
theorem container_nodes_with_tensor_output_abort_wit :
    ((nW4.kind = NodeKind.listConstruct ∨ nW4.kind = NodeKind.listUnpack) ∧
        (nW4.outputs.any fun v => isTensorType (sW4 v)) = true) ∧
      processNode gW4 sW4 nW4 = .error .notSupportedIR :=
  ⟨⟨Or.inr rfl, by decide⟩,
    container_nodes_with_tensor_output_abort gW4 sW4 nW4 (Or.inr rfl)
      (by decide)⟩

/-- Claim C5: the entry point reports changed=true exactly when some
value's type assignment differs after the call, and every difference is a
refinement: a tensor type with no placement received one. -/
theorem changed_flag_iff_some_refinement (g : Graph) (s s' : State) (c : Bool)
    (h : DeviceTypePropagation g s = .ok (s', c)) :
    (c = true ↔ ∃ v, s' v ≠ s v) ∧
      ∀ v, s' v ≠ s v →
        s v = VType.tensor none ∧ ∃ d, s' v = VType.tensor (some d) := by
  have hso := processBlock_stepOK g g.nodes s s' c h
  refine ⟨hso.2, ?_⟩
  intro v hv
  rcases hso.1 v with he | ⟨ha, d, hb⟩
  · exact absurd he hv
  · exact ⟨ha, d, hb⟩

/-- Witness for C5 at a concrete run that refines one value. -/
theorem changed_flag_iff_some_refinement_wit :
    DeviceTypePropagation gW5 sW5 = .ok (tW5, true) ∧
      ((true = true ↔ ∃ v, tW5 v ≠ sW5 v) ∧
        ∀ v, tW5 v ≠ sW5 v →
          sW5 v = VType.tensor none ∧ ∃ d, tW5 v = VType.tensor (some d)) :=
  ⟨rfl, changed_flag_iff_some_refinement gW5 sW5 tW5 true rfl⟩

/-- Claim C6: on a well-formed (single-assignment, def-before-use) block,
a completed run of the pass is idempotent: a second invocation on the
resulting graph reports changed=false and leaves every type assignment
exactly as the first invocation produced it. -/
theorem pass_idempotent_on_wellformed_graphs (g : Graph) (s t : State)
    (c : Bool) (hwf : blockWF g.nodes = true)
    (h : DeviceTypePropagation g s = .ok (t, c)) :
    DeviceTypePropagation g t = .ok (t, false) :=
  processBlock_idem g g.nodes s t c hwf h

/-- Witness for C6 at a concrete run that changes a value. -/
theorem pass_idempotent_on_wellformed_graphs_wit :
    (blockWF gW6.nodes = true ∧
        DeviceTypePropagation gW6 sW6 = .ok (tW6, true)) ∧
      DeviceTypePropagation gW6 tW6 = .ok (tW6, false) :=
  ⟨⟨by decide, rfl⟩,
    pass_idempotent_on_wellformed_graphs gW6 sW6 tW6 true (by decide) rfl⟩

/-- Claim C7: a placement already present on a value survives any
completed run unchanged; the single-value setter reports "unchanged" when
asked to re-set the same placement without the overwrite flag, and aborts
fatally when asked to set a different one without the flag. -/
theorem placement_monotonic_never_overwritten (g : Graph) (s t : State)
    (c : Bool) (v : ValueId) (d : Device)
    (h : DeviceTypePropagation g s = .ok (t, c))
    (hv : s v = VType.tensor (some d)) :
    t v = VType.tensor (some d) ∧
      setDeviceType s v d false = .ok (s, false) ∧
      ∀ d2, d2 ≠ d → setDeviceType s v d2 false = .error .overwriteDenied := by
  refine ⟨?_, ?_, ?_⟩
  · have hso := processBlock_stepOK g g.nodes s t c h
    rcases hso.1 v with he | ⟨ha, d1, hb⟩
    · rw [he, hv]
    · rw [hv] at ha
      exact absurd ha (by simp)
  · simp [setDeviceType, hv]
  · intro d2 hd2
    simp [setDeviceType, hv, Ne.symm hd2]

/-- Witness for C7 at a concrete pre-placed value. -/
theorem placement_monotonic_never_overwritten_wit :
    (DeviceTypePropagation gW7 sW7 = .ok (sW7, false) ∧
        sW7 0 = VType.tensor (some 2)) ∧
      (sW7 0 = VType.tensor (some 2) ∧
        setDeviceType sW7 0 2 false = .ok (sW7, false) ∧
        ∀ d2, d2 ≠ 2 → setDeviceType sW7 0 d2 false =
          .error .overwriteDenied) :=
  ⟨⟨rfl, rfl⟩,
    placement_monotonic_never_overwritten gW7 sW7 sW7 false 0 2 rfl rfl⟩

/-- Claim C2 (amended): for a node with no placement-typed formal, the
default rule is exactly input unification.  The first tensor input with a
known placement is the reference P; a later known placement differing
from P aborts fatally; with agreeing placements and no tensor output
already carrying a conflicting placement, P is fanned out over the
tensor-typed outputs and changed=true is reported iff some tensor output
lacked a placement; with no known input placement, no change. -/
theorem input_unification_characterization (g : Graph) (s : State) (n : Node)
    (P : Device)
    (hnd : n.schemaArgs.all (fun a => !(isDeviceArgumentType a)) = true) :
    defaultDeviceProp g s n = propWithNoDevice s n ∧
      (knownInputDevices s n.inputs = [] →
        propWithNoDevice s n = .ok (s, false)) ∧
      ((knownInputDevices s n.inputs).head? = some P →
        ((∃ Q ∈ knownInputDevices s n.inputs, Q ≠ P) →
          propWithNoDevice s n = .error .inputDeviceMismatch) ∧
        ((∀ Q ∈ knownInputDevices s n.inputs, Q = P) →
          (outConflict s P n.outputs →
            propWithNoDevice s n = .error .overwriteDenied) ∧
          (¬ outConflict s P n.outputs →
            propWithNoDevice s n =
              .ok (updOuts s n.outputs P, anyUnset s n.outputs)))) := by
  have hvac : ∀ j, (hj : j < n.schemaArgs.length) →
      isDeviceArgumentType (n.schemaArgs.get ⟨j, hj⟩) = true →
      resolvesNoneAt g n (0 + j) = true := by
    intro j hj hd
    have hall := List.all_eq_true.mp hnd (n.schemaArgs.get ⟨j, hj⟩)
      (n.schemaArgs.get_mem j hj)
    rw [hd] at hall
    simp at hall
  have hfb : defaultDeviceProp g s n = propWithNoDevice s n := by
    unfold defaultDeviceProp
    have hsk := scan_skip g s n n.schemaArgs [] 0 hvac
    rw [List.append_nil] at hsk
    exact hsk
  refine ⟨hfb, ?_, ?_⟩
  · intro hemp
    apply pwnd_eq_none
    rw [findCommonDevice_none, hemp]
  · intro hhead
    obtain ⟨ds, hds⟩ : ∃ ds, knownInputDevices s n.inputs = P :: ds := by
      cases hK : knownInputDevices s n.inputs with
      | nil => rw [hK] at hhead; cases hhead
      | cons d0 ds =>
        rw [hK] at hhead
        simp at hhead
        exact ⟨ds, by rw [hhead]⟩
    constructor
    · rintro ⟨Q, hQmem, hQne⟩
      apply pwnd_eq_err
      rw [findCommonDevice_none, hds]
      show (if ∀ c ∈ ds, c = P then
          (Except.ok (some P) : Except Err (Option Device))
        else .error .inputDeviceMismatch) = .error .inputDeviceMismatch
      have hcond : ¬ ∀ c ∈ ds, c = P := by
        intro hall
        rw [hds] at hQmem
        rcases List.mem_cons.mp hQmem with hq | hq
        · exact hQne hq
        · exact hQne (hall Q hq)
      rw [if_neg hcond]
    · intro hall
      have hfc : findCommonDevice s n.inputs none = .ok (some P) := by
        rw [findCommonDevice_none, hds]
        show (if ∀ c ∈ ds, c = P then
            (Except.ok (some P) : Except Err (Option Device))
          else .error .inputDeviceMismatch) = .ok (some P)
        have hcond : ∀ c ∈ ds, c = P := fun c hc =>
          hall c (by rw [hds]; exact List.mem_cons_of_mem _ hc)
        rw [if_pos hcond]
      refine ⟨?_, ?_⟩
      · intro hconf
        rw [pwnd_eq_some s n P hfc]
        exact setReturnsToDevice_err s n.outputs P hconf
      · intro hnconf
        rw [pwnd_eq_some s n P hfc]
        exact setReturnsToDevice_ok s n.outputs P hnconf

/-- Counterexample to C2 as stated: a reference placement is established
(head of the known input placements is 5) and the signature has no
placement-typed formal, yet the node reports changed=false, because its
only tensor output already carries placement 5. -/
theorem input_unification_changed_flag_cex :
    (knownInputDevices sC2 nC2.inputs).head? = some 5 ∧
      nC2.schemaArgs.all (fun a => !(isDeviceArgumentType a)) = true ∧
      defaultDeviceProp gC2 sC2 nC2 = .ok (sC2, false) :=
  ⟨by decide, by decide, rfl⟩

/-- Witness for C2 at a concrete node with known input placements
{4, 4, unset}. -/
theorem input_unification_characterization_wit :
    (nW2.schemaArgs.all (fun a => !(isDeviceArgumentType a)) = true ∧
        (knownInputDevices sW2 nW2.inputs).head? = some 4 ∧
        (∀ Q ∈ knownInputDevices sW2 nW2.inputs, Q = 4)) ∧
      (defaultDeviceProp gW2 sW2 nW2 = propWithNoDevice sW2 nW2 ∧
        propWithNoDevice sW2 nW2 =
          .ok (updOuts sW2 nW2.outputs 4, anyUnset sW2 nW2.outputs)) := by
  have hthm := input_unification_characterization gW2 sW2 nW2 4 (by decide)
  have hnc : ¬ outConflict sW2 4 nW2.outputs := by
    rintro ⟨o, ho, d0, h1, h2⟩
    simp [nW2] at ho
    subst ho
    simp [sW2] at h1
  refine ⟨⟨by decide, by decide, by decide⟩, hthm.1, ?_⟩
  exact ((hthm.2.2 (by decide)).2 (by decide)).2 hnc

/-- Claim C3 (amended): when the first placement-typed formal whose
actual does not resolve to absent/none resolves to a concrete placement
Q, the default rule's result is exactly the fan-out of Q over the node's
outputs, independently of the remaining formals and of the tensor inputs'
placements: tensor outputs lacking a placement get Q, outputs already at
Q are unchanged, an output at a different placement aborts fatally;
changed=true iff some tensor output lacked a placement; every value
outside the outputs (inputs in particular) is untouched. -/
theorem explicit_device_argument_precedence (g : Graph) (s : State) (n : Node)
    (pre post : List SchemaType) (dArg : SchemaType) (vq : ValueId)
    (Q : Device) (hargs : n.schemaArgs = pre ++ dArg :: post)
    (hpre : ∀ j, (hj : j < pre.length) →
      isDeviceArgumentType (pre.get ⟨j, hj⟩) = true →
      resolvesNoneAt g n j = true)
    (hdA : isDeviceArgumentType dArg = true)
    (hvq : n.inputs.get? pre.length = some vq)
    (hQ : g.constMap vq = some (.deviceV Q)) :
    defaultDeviceProp g s n = setReturnsToDevice s n.outputs Q ∧
      (outConflict s Q n.outputs →
        defaultDeviceProp g s n = .error .overwriteDenied) ∧
      (¬ outConflict s Q n.outputs →
        defaultDeviceProp g s n =
          .ok (updOuts s n.outputs Q, anyUnset s n.outputs) ∧
        (∀ w, w ∉ n.outputs → updOuts s n.outputs Q w = s w) ∧
        (anyUnset s n.outputs = true ↔
          ∃ w ∈ n.outputs, s w = VType.tensor none)) := by
  have hpre0 : ∀ j, (hj : j < pre.length) →
      isDeviceArgumentType (pre.get ⟨j, hj⟩) = true →
      resolvesNoneAt g n (0 + j) = true := by
    intro j hj hd
    rw [Nat.zero_add]
    exact hpre j hj hd
  have h1 : defaultDeviceProp g s n = setReturnsToDevice s n.outputs Q := by
    unfold defaultDeviceProp
    rw [hargs, scan_skip g s n pre (dArg :: post) 0 hpre0, Nat.zero_add]
    exact scan_cons_dev g s n dArg post pre.length vq Q hdA hvq hQ
  refine ⟨h1, ?_, ?_⟩
  · intro hconf
    rw [h1]
    exact setReturnsToDevice_err s n.outputs Q hconf
  · intro hnconf
    refine ⟨?_, ?_, ?_⟩
    · rw [h1]
      exact setReturnsToDevice_ok s n.outputs Q hnconf
    · intro w hw
      simp [updOuts, hw]
    · constructor
      · intro ha
        obtain ⟨w, hw, hdec⟩ := List.any_eq_true.mp ha
        exact ⟨w, hw, of_decide_eq_true hdec⟩
      · rintro ⟨w, hw, hsw⟩
        exact List.any_eq_true.mpr ⟨w, hw, by simp [hsw]⟩

/-- Counterexample to C3 as stated: the placement-typed formal is bound
to the concrete placement 4, yet the node reports changed=false (not
changed=true), because its only tensor output already carries 4. -/
theorem explicit_device_argument_changed_flag_cex :
    gC3.constMap 1 = some (.deviceV 4) ∧
      nC3.inputs.get? 1 = some 1 ∧
      isDeviceArgumentType SchemaType.deviceT = true ∧
      defaultDeviceProp gC3 sC3 nC3 = .ok (sC3, false) :=
  ⟨rfl, rfl, rfl, rfl⟩

/-- Witness for C3 at a concrete node whose device formal is bound to 6
while the tensor input carries 9. -/
theorem explicit_device_argument_precedence_wit :
    (nW3.schemaArgs = [SchemaType.tensorT] ++ SchemaType.deviceT :: [] ∧
        isDeviceArgumentType SchemaType.deviceT = true ∧
        nW3.inputs.get? 1 = some 1 ∧
        gW3.constMap 1 = some (.deviceV 6)) ∧
      (defaultDeviceProp gW3 sW3 nW3 = setReturnsToDevice sW3 nW3.outputs 6 ∧
        defaultDeviceProp gW3 sW3 nW3 =
          .ok (updOuts sW3 nW3.outputs 6, anyUnset sW3 nW3.outputs)) := by
  have hpre : ∀ j, (hj : j < List.length [SchemaType.tensorT]) →
      isDeviceArgumentType ([SchemaType.tensorT].get ⟨j, hj⟩) = true →
      resolvesNoneAt gW3 nW3 j = true := by
    intro j hj hd
    have hj0 : j = 0 := by
      have hj1 : j < 1 := by simpa using hj
      omega
    subst hj0
    simp [isDeviceArgumentType] at hd
  have hthm := explicit_device_argument_precedence gW3 sW3 nW3
    [SchemaType.tensorT] [] SchemaType.deviceT 1 6 rfl hpre rfl rfl rfl
  have hnc : ¬ outConflict sW3 6 nW3.outputs := by
    rintro ⟨o, ho, d0, h1, h2⟩
    simp [nW3] at ho
    subst ho
    simp [sW3] at h1
  exact ⟨⟨rfl, rfl, rfl, rfl⟩, hthm.1, (hthm.2.2 hnc).1⟩

/-- Claim C1 (amended): the input-unification fallback runs precisely
when every placement-typed formal's actual statically resolves to the
absent/none variant — in particular it does run for a node whose
signature contains a placement-typed formal, whenever that formal
resolves to absent/none (see the counterexample).  When the first
placement-typed formal that does not resolve to absent/none exists, the
explicit scan alone decides: dynamic value — no change; other union
member — no change; concrete placement d — the fan-out of d. -/
theorem fallback_runs_iff_every_device_formal_resolves_none (g : Graph)
    (s : State) (n : Node) :
    ((∀ j, (hj : j < n.schemaArgs.length) →
        isDeviceArgumentType (n.schemaArgs.get ⟨j, hj⟩) = true →
        resolvesNoneAt g n j = true) →
      defaultDeviceProp g s n = propWithNoDevice s n) ∧
      ∀ (pre post : List SchemaType) (dArg : SchemaType) (vq : ValueId),
        n.schemaArgs = pre ++ dArg :: post →
        (∀ j, (hj : j < pre.length) →
          isDeviceArgumentType (pre.get ⟨j, hj⟩) = true →
          resolvesNoneAt g n j = true) →
        isDeviceArgumentType dArg = true →
        n.inputs.get? pre.length = some vq →
        (g.constMap vq = none → defaultDeviceProp g s n = .ok (s, false)) ∧
          (∀ d, g.constMap vq = some (.deviceV d) →
            defaultDeviceProp g s n = setReturnsToDevice s n.outputs d) ∧
          (g.constMap vq = some .otherV →
            defaultDeviceProp g s n = .ok (s, false)) := by
  constructor
  · intro hall
    have hall0 : ∀ j, (hj : j < n.schemaArgs.length) →
        isDeviceArgumentType (n.schemaArgs.get ⟨j, hj⟩) = true →
        resolvesNoneAt g n (0 + j) = true := by
      intro j hj hd
      rw [Nat.zero_add]
      exact hall j hj hd
    unfold defaultDeviceProp
    have hsk := scan_skip g s n n.schemaArgs [] 0 hall0
    rw [List.append_nil] at hsk
    exact hsk
  · intro pre post dArg vq hargs hpre hdA hvq
    have hpre0 : ∀ j, (hj : j < pre.length) →
        isDeviceArgumentType (pre.get ⟨j, hj⟩) = true →
        resolvesNoneAt g n (0 + j) = true := by
      intro j hj hd
      rw [Nat.zero_add]
      exact hpre j hj hd
    have hstep : defaultDeviceProp g s n =
        scanDeviceArgs g s n (dArg :: post) pre.length := by
      unfold defaultDeviceProp
      rw [hargs, scan_skip g s n pre (dArg :: post) 0 hpre0, Nat.zero_add]
    refine ⟨?_, ?_, ?_⟩
    · intro hcm
      rw [hstep]
      exact scan_cons_dyn g s n dArg post pre.length vq hdA hvq hcm
    · intro d hcm
      rw [hstep]
      exact scan_cons_dev g s n dArg post pre.length vq d hdA hvq hcm
    · intro hcm
      rw [hstep]
      exact scan_cons_other g s n dArg post pre.length vq hdA hvq hcm

/-- Counterexample to C1 as stated: a node whose signature contains a
placement-typed formal (an optional device argument) whose actual
statically resolves to absent/none; the rule falls through to input
unification and infers placement 7 from the node's tensor input,
reporting changed=true. -/
theorem fallback_despite_device_formal_cex :
    nC1.schemaArgs.any isDeviceArgumentType = true ∧
      gC1.constMap 1 = some .noneV ∧
      sC1 0 = VType.tensor (some 7) ∧
      resultChanged (defaultDeviceProp gC1 sC1 nC1) = some true ∧
      resultStateAt 2 (defaultDeviceProp gC1 sC1 nC1) =
        some (VType.tensor (some 7)) := by decide

/-- Witness for C1: a concrete node with a none-resolving optional device
formal on which the fallback runs. -/
theorem fallback_runs_iff_every_device_formal_resolves_none_wit :
    (∀ j, (hj : j < nW1.schemaArgs.length) →
        isDeviceArgumentType (nW1.schemaArgs.get ⟨j, hj⟩) = true →
        resolvesNoneAt gW1 nW1 j = true) ∧
      defaultDeviceProp gW1 sW1 nW1 = propWithNoDevice sW1 nW1 := by
  have hh : ∀ j, (hj : j < nW1.schemaArgs.length) →
      isDeviceArgumentType (nW1.schemaArgs.get ⟨j, hj⟩) = true →
      resolvesNoneAt gW1 nW1 j = true := by decide
  exact ⟨hh,
    (fallback_runs_iff_every_device_formal_resolves_none gW1 sW1 nW1).1 hh⟩

/-- Claim C8 (amended): the genuinely non-fatal "cannot infer" outcomes.
A placement formal (first one not preceded by a non-none placement
formal) resolving to a dynamic value yields no change; one resolving to a
non-placement union member yields no change; one resolving to absent/none
is skipped and scanning continues with the remaining formals (it does
not by itself yield "no change" — see the counterexample); and when every
placement formal resolves to absent/none and no tensor input carries a
known placement, the node yields no change.  All of these return a
normal result, so the sweep continues. -/
theorem no_change_outcomes_characterization (g : Graph) (s : State)
    (n : Node) :
    (∀ (pre post : List SchemaType) (dArg : SchemaType) (vq : ValueId),
      n.schemaArgs = pre ++ dArg :: post →
      (∀ j, (hj : j < pre.length) →
        isDeviceArgumentType (pre.get ⟨j, hj⟩) = true →
        resolvesNoneAt g n j = true) →
      isDeviceArgumentType dArg = true →
      n.inputs.get? pre.length = some vq →
      (g.constMap vq = none → defaultDeviceProp g s n = .ok (s, false)) ∧
        (g.constMap vq = some .otherV →
          defaultDeviceProp g s n = .ok (s, false)) ∧
        (g.constMap vq = some .noneV →
          defaultDeviceProp g s n =
            scanDeviceArgs g s n post (pre.length + 1))) ∧
      ((∀ j, (hj : j < n.schemaArgs.length) →
          isDeviceArgumentType (n.schemaArgs.get ⟨j, hj⟩) = true →
          resolvesNoneAt g n j = true) →
        knownInputDevices s n.inputs = [] →
        defaultDeviceProp g s n = .ok (s, false)) := by
  constructor
  · intro pre post dArg vq hargs hpre hdA hvq
    have hpre0 : ∀ j, (hj : j < pre.length) →
        isDeviceArgumentType (pre.get ⟨j, hj⟩) = true →
        resolvesNoneAt g n (0 + j) = true := by
      intro j hj hd
      rw [Nat.zero_add]
      exact hpre j hj hd
    have hstep : defaultDeviceProp g s n =
        scanDeviceArgs g s n (dArg :: post) pre.length := by
      unfold defaultDeviceProp
      rw [hargs, scan_skip g s n pre (dArg :: post) 0 hpre0, Nat.zero_add]
    refine ⟨?_, ?_, ?_⟩
    · intro hcm
      rw [hstep]
      exact scan_cons_dyn g s n dArg post pre.length vq hdA hvq hcm
    · intro hcm
      rw [hstep]
      exact scan_cons_other g s n dArg post pre.length vq hdA hvq hcm
    · intro hcm
      rw [hstep]
      exact scan_cons_none g s n dArg post pre.length vq hdA hvq hcm
  · intro hall hemp
    have hall0 : ∀ j, (hj : j < n.schemaArgs.length) →
        isDeviceArgumentType (n.schemaArgs.get ⟨j, hj⟩) = true →
        resolvesNoneAt g n (0 + j) = true := by
      intro j hj hd
      rw [Nat.zero_add]
      exact hall j hj hd
    have hfb : defaultDeviceProp g s n = propWithNoDevice s n := by
      unfold defaultDeviceProp
      have hsk := scan_skip g s n n.schemaArgs [] 0 hall0
      rw [List.append_nil] at hsk
      exact hsk
    rw [hfb]
    apply pwnd_eq_none
    rw [findCommonDevice_none, hemp]

/-- Counterexample to C8 as stated: a node whose placement argument
resolves to the absent/none variant does not yield "no change": scanning
continues, falls through to input unification, and the node reports
changed=true. -/
theorem none_resolving_formal_not_no_change_cex :
    isDeviceArgAt nC8 0 = true ∧ resolvesNoneAt gC8 nC8 0 = true ∧
      resultChanged (defaultDeviceProp gC8 sC8 nC8) = some true := by decide

/-- Witness for C8 at a concrete node whose device formal resolves to a
dynamic (non-constant) value: non-fatal no change. -/
theorem no_change_outcomes_characterization_wit :
    (nW8.schemaArgs =
        [] ++ SchemaType.optionalT SchemaType.deviceT :: [SchemaType.tensorT] ∧
        isDeviceArgumentType (SchemaType.optionalT SchemaType.deviceT) = true ∧
        nW8.inputs.get? 0 = some 1 ∧ gW8.constMap 1 = none) ∧
      defaultDeviceProp gW8 sW8 nW8 = .ok (sW8, false) := by
  have hthm := (no_change_outcomes_characterization gW8 sW8 nW8).1 []
    [SchemaType.tensorT] (SchemaType.optionalT SchemaType.deviceT) 1 rfl
    (fun j hj _ => absurd hj (Nat.not_lt_zero j)) rfl rfl
  exact ⟨⟨rfl, rfl, rfl, rfl⟩, hthm.1 rfl⟩
